import Mathlib

/-!
Shallow embedding of the edge traffic manager (load balancer, health
checker, cache manager) of the ping-booster Cloudflare worker, together
with proofs about its selection, failover, health-scoring and cache
eligibility behaviour.

JS `Map` objects are embedded as association lists in insertion order,
JS numbers as `ℚ` (or `Int`/`Nat` where the source only ever holds
integers), and thrown runtime errors as an explicit error value.
-/

namespace PingBooster

/-- A JavaScript runtime error relevant to the embedded code:
accessing an undefined identifier, or a property of `undefined`. -/
inductive JsErr where
  | referenceError
  | typeError
deriving DecidableEq, Repr

/-- `Map.get`: first binding for the key, in insertion order. -/
def mapGet {α : Type} : List (String × α) → String → Option α
  | [], _ => none
  | (k', v) :: rest, k => if k' = k then some v else mapGet rest k

/-- `Map.set`: replace the existing binding in place, else append. -/
def mapSet {α : Type} : List (String × α) → String → α → List (String × α)
  | [], k, v => [(k, v)]
  | (k', v') :: rest, k, v =>
    if k' = k then (k', v) :: rest else (k', v') :: mapSet rest k v

/-- `x || 0` on a possibly-absent JS number that is never `NaN`. -/
def jsOrZero (o : Option Int) : Int :=
  match o with
  | some n => n
  | none => 0

/-- JS truthiness of a possibly-absent string (`undefined` and `""` are falsy). -/
def jsTruthy (o : Option String) : Bool :=
  match o with
  | some s => s ≠ ""
  | none => false

/-- `Math.round` on the (exact, rational) value: round half up. -/
def jsRound (q : ℚ) : Int := ⌊q + 1/2⌋

/-- `Headers.get`. A `Headers` object stores its keys already
lowercased, and the embedded code only queries lowercase names, so the
lookup is a plain map lookup over the normalized map. -/
def headerGet (hs : List (String × String)) (name : String) : Option String :=
  mapGet hs name

/-- `headers.get(name) || d`. -/
def headerGetD (hs : List (String × String)) (name d : String) : String :=
  match headerGet hs name with
  | some s => if s = "" then d else s
  | none => d

/-- Whether `pat` occurs as a contiguous run inside `hay`. -/
def subOccurs : List Char → List Char → Bool
  | [], pat => pat.isEmpty
  | h :: t, pat => pat.isPrefixOf (h :: t) || subOccurs t pat

/-- `String.prototype.includes`: substring containment. -/
def containsSubstr (s pat : String) : Bool := subOccurs s.data pat.data

/-- `String.prototype.startsWith`. -/
def strStartsWith (s pre : String) : Bool := pre.data.isPrefixOf s.data

/-- Leading decimal digit run to a number, `none` when there are no digits
(this is `parseInt` returning `NaN`). -/
def digitsToNat (ds : List Char) : Option Nat :=
  if ds = [] then none
  else some (ds.foldl (fun a c => a * 10 + (c.toNat - 48)) 0)

/-- JS `parseInt(s)` (radix 10): skip leading spaces, optional sign,
longest leading digit run; `none` models `NaN`. -/
def jsParseInt (s : String) : Option Int :=
  let cs := s.data.dropWhile (fun c => c = ' ' ∨ c = '\t' ∨ c = '\n')
  match cs with
  | '-' :: rest => (digitsToNat (rest.takeWhile Char.isDigit)).map (fun n => -(n : Int))
  | '+' :: rest => (digitsToNat (rest.takeWhile Char.isDigit)).map (fun n => (n : Int))
  | _ => (digitsToNat (cs.takeWhile Char.isDigit)).map (fun n => (n : Int))

/-! ## Health checker (HealthChecker class) -/

/-- Per-origin cumulative probe counters (`this.metrics` entries).
`errors` holds the timestamps of the logged errors (most data of the
error records is irrelevant to scoring). -/
structure OriginMetrics where
  totalChecks : Nat
  successfulChecks : Nat
  totalResponseTime : ℚ
  errors : List ℤ
deriving DecidableEq, Repr

/-- The health checker's mutable state: probe interval, the response-time
threshold (2000 ms), the per-origin cached snapshot `(healthy, cachedAt)`
keyed by `"health:" ++ origin`, and per-origin metrics. -/
structure HealthChecker where
  checkInterval : ℤ
  responseTimeThreshold : ℚ
  healthCache : List (String × (Bool × ℤ))
  metrics : List (String × OriginMetrics)
deriving DecidableEq, Repr

/-- `HealthChecker.isOriginHealthy`: false when there is no cached
snapshot or the snapshot is older than twice the probe interval,
otherwise the snapshot's recorded healthy flag. -/
def isOriginHealthy (hc : HealthChecker) (now : ℤ) (origin : String) : Bool :=
  match mapGet hc.healthCache ("health:" ++ origin) with
  | none => false
  | some (healthy, ts) =>
    if now - ts > hc.checkInterval * 2 then false else healthy

/-- `HealthChecker.calculateHealthScore`: 0 when no checks were recorded,
else the rounded weighted sum of the success-rate score, the
response-time score and the recent-error score. -/
def calculateHealthScore (hc : HealthChecker) (now : ℤ) (m : OriginMetrics) : Int :=
  if m.totalChecks = 0 then 0
  else
    let successRate : ℚ := (m.successfulChecks : ℚ) / (m.totalChecks : ℚ)
    let successScore := successRate * 100
    let avgResponseTime : ℚ := m.totalResponseTime / (m.totalChecks : ℚ)
    let responseScore := max 0 (100 - avgResponseTime / hc.responseTimeThreshold * 100)
    let recentErrors := (m.errors.filter (fun ts => now - ts < hc.checkInterval * 5)).length
    let recentScore := max 0 ((100 : ℚ) - (recentErrors : ℚ) * 20)
    jsRound (successScore * (4/10) + responseScore * (3/10) + recentScore * (3/10))

/-- `HealthChecker.getOriginsByHealth`: metrics entries scored and sorted
by descending health score (JS `sort` is stable; so is `mergeSort`). -/
def getOriginsByHealth (hc : HealthChecker) (now : ℤ) : List (String × Int) :=
  (hc.metrics.map (fun p => (p.1, calculateHealthScore hc now p.2))).mergeSort
    (fun a b => b.2 ≤ a.2)

/-! ## Load balancer (LoadBalancer class) -/

/-- The request context fields the load balancer reads. -/
structure Ctx where
  edgeColo : String
  country : String
  isFailover : Bool
deriving DecidableEq, Repr

/-- `LoadBalancer` mutable state. `geographicMapping` values are
`Option String` because `initializeGeographicMapping` stores
`this.origins[i]`, which is `undefined` when fewer than three origins
are configured. Latency history entries are `(latency, timestamp)`. -/
structure LoadBalancer where
  origins : List String
  currentAlgorithm : String
  roundRobinIndex : Nat
  connectionCounts : List (String × Int)
  latencyHistory : List (String × List (ℚ × ℤ))
  weights : List (String × ℚ)
  geographicMapping : List (String × Option String)
deriving DecidableEq, Repr

/-- The recognized algorithm names (`Object.values(this.algorithms)`). -/
def algorithmValues : List String :=
  ["round_robin", "least_connections", "weighted_round_robin",
   "latency_based", "geographic", "health_score"]

/-- `this.weights.get(origin) || 1` (a stored weight of 0 is falsy). -/
def wGet (ws : List (String × ℚ)) (o : String) : ℚ :=
  match mapGet ws o with
  | some w => if w = 0 then 1 else w
  | none => 1

/-- `LoadBalancer.roundRobin`: pick at cursor mod size, bump the cursor. -/
def roundRobin (lb : LoadBalancer) (healthy : List String) :
    Except JsErr (Option String) × LoadBalancer :=
  (Except.ok (healthy.get? (lb.roundRobinIndex % healthy.length)),
   { lb with roundRobinIndex := lb.roundRobinIndex + 1 })

/-- The scan of `LoadBalancer.leastConnections`: running selection and
minimum (strict `<`, so the first origin attaining the minimum wins). -/
def leastConnLoop (counts : List (String × Int)) :
    List String → String → Int → String × Int
  | [], sel, mn => (sel, mn)
  | o :: rest, sel, mn =>
    let c := jsOrZero (mapGet counts o)
    if c < mn then leastConnLoop counts rest o c else leastConnLoop counts rest sel mn

/-- `LoadBalancer.leastConnections`: pick the minimum-connection origin
and increment its counter. Call sites guarantee a non-empty list; the
empty case is modelled as `undefined` with no state change. -/
def leastConnections (lb : LoadBalancer) (healthy : List String) :
    Except JsErr (Option String) × LoadBalancer :=
  match healthy with
  | [] => (Except.ok none, lb)
  | o0 :: _ =>
    let r := leastConnLoop lb.connectionCounts healthy o0 (jsOrZero (mapGet lb.connectionCounts o0))
    (Except.ok (some r.1),
     { lb with connectionCounts := mapSet lb.connectionCounts r.1 (r.2 + 1) })

/-- The loop of `LoadBalancer.weightedRoundRobin`: accumulate weights and
return the first origin whose cumulative weight reaches the draw. -/
def wrrLoop (ws : List (String × ℚ)) (r : ℚ) : ℚ → List String → Option String
  | _, [] => none
  | cur, o :: rest =>
    let cw := cur + wGet ws o
    if r ≤ cw then some o else wrrLoop ws r cw rest

/-- `LoadBalancer.weightedRoundRobin`: `rand` is the `Math.random()`
draw; `random = rand * totalWeight`; fall back to the first origin if
the loop somehow finishes. -/
def weightedRoundRobin (lb : LoadBalancer) (healthy : List String) (rand : ℚ) :
    Except JsErr (Option String) × LoadBalancer :=
  let totalWeight := healthy.foldl (fun s o => s + wGet lb.weights o) 0
  let random := rand * totalWeight
  match wrrLoop lb.weights random 0 healthy with
  | some o => (Except.ok (some o), lb)
  | none => (Except.ok healthy.head?, lb)

/-- `LoadBalancer.geographic`: return the mapped origin when it is truthy
and healthy; otherwise the source calls `selectClosestOrigin`, whose body
reads the undefined identifiers `context` and `origins` (its parameters
were renamed to `_origins`/`_context`), raising a `ReferenceError`. -/
def geographic (lb : LoadBalancer) (healthy : List String) (ctx : Ctx) :
    Except JsErr (Option String) × LoadBalancer :=
  match mapGet lb.geographicMapping ctx.edgeColo with
  | some (some p) =>
    if p ≠ "" ∧ p ∈ healthy then (Except.ok (some p), lb)
    else (Except.error JsErr.referenceError, lb)
  | _ => (Except.error JsErr.referenceError, lb)

/-- `LoadBalancer.healthScoreBased`: filter the health-ranked origins to
the healthy set, keep those within 90% of the best score, pick at a
random index (`Math.floor(rand * length)`); an out-of-range index makes
`topOrigins[i].origin` a property access on `undefined` (`TypeError`). -/
def healthScoreBased (lb : LoadBalancer) (hc : HealthChecker)
    (healthy : List String) (rand : ℚ) (now : ℤ) :
    Except JsErr (Option String) × LoadBalancer :=
  let byHealth := (getOriginsByHealth hc now).filter (fun p => p.1 ∈ healthy)
  match byHealth with
  | [] => (Except.ok healthy.head?, lb)
  | best :: _ =>
    let top := byHealth.filter (fun p => (best.2 : ℚ) * (9/10) ≤ (p.2 : ℚ))
    let idx : Int := ⌊rand * (top.length : ℚ)⌋
    if idx < 0 then (Except.error JsErr.typeError, lb)
    else
      match top.get? idx.toNat with
      | some p => (Except.ok (some p.1), lb)
      | none => (Except.error JsErr.typeError, lb)

/-- `LoadBalancer.getOptimalOrigin` (the spec's `selectOrigin`): compute
the healthy subset, fail open to the first configured origin when it is
empty, shortcut a singleton, else dispatch on the current algorithm.
The `latency_based` branch is `latencyBased`, whose body reads the
undefined identifier `origins` (the parameters were renamed to
`_origins`/`_context`), so it raises a `ReferenceError` before touching
any state. -/
def getOptimalOrigin (lb : LoadBalancer) (hc : HealthChecker) (ctx : Ctx)
    (rand : ℚ) (now : ℤ) : Except JsErr (Option String) × LoadBalancer :=
  let healthy := lb.origins.filter (isOriginHealthy hc now)
  if healthy.length = 0 then (Except.ok lb.origins.head?, lb)
  else if healthy.length = 1 then (Except.ok healthy.head?, lb)
  else if lb.currentAlgorithm = "round_robin" then roundRobin lb healthy
  else if lb.currentAlgorithm = "least_connections" then leastConnections lb healthy
  else if lb.currentAlgorithm = "weighted_round_robin" then weightedRoundRobin lb healthy rand
  else if lb.currentAlgorithm = "latency_based" then (Except.error JsErr.referenceError, lb)
  else if lb.currentAlgorithm = "geographic" then geographic lb healthy ctx
  else if lb.currentAlgorithm = "health_score" then healthScoreBased lb hc healthy rand now
  else roundRobin lb healthy

/-- `LoadBalancer.getFailoverOrigin`: alternatives exclude the failed
origin; with no healthy alternative return `alternatives[0] || failed`;
otherwise re-run `getOptimalOrigin` (over all origins) with the context
tagged as a failover attempt. -/
def getFailoverOrigin (lb : LoadBalancer) (hc : HealthChecker)
    (failedOrigin : String) (ctx : Ctx) (rand : ℚ) (now : ℤ) :
    Except JsErr (Option String) × LoadBalancer :=
  let alternatives := lb.origins.filter (fun o => o ≠ failedOrigin)
  let healthyAlts := alternatives.filter (isOriginHealthy hc now)
  if healthyAlts.length = 0 then
    (Except.ok (some (match alternatives.head? with
      | some s => if s = "" then failedOrigin else s
      | none => failedOrigin)), lb)
  else getOptimalOrigin lb hc { ctx with isFailover := true } rand now

/-- `LoadBalancer.getAverageLatency`: 1000 ms penalty when there is no
history or no sample in the last 10 minutes, else the rounded mean of
the recent samples. -/
def getAverageLatency (lb : LoadBalancer) (now : ℤ) (origin : String) : Int :=
  let history := (mapGet lb.latencyHistory origin).getD []
  if history.length = 0 then 1000
  else
    let cutoff := now - 10 * 60 * 1000
    let recent := history.filter (fun m => cutoff < m.2)
    if recent.length = 0 then 1000
    else jsRound ((recent.map (fun m => m.1)).sum / (recent.length : ℚ))

/-- `LoadBalancer.setAlgorithm`: returns the state after the call and the
thrown error message, if any (the throw happens before any mutation). -/
def setAlgorithm (lb : LoadBalancer) (algorithm : String) :
    LoadBalancer × Option String :=
  if algorithm ∈ algorithmValues then
    ({ lb with currentAlgorithm := algorithm }, none)
  else (lb, some ("Invalid algorithm: " ++ algorithm))

/-- `LoadBalancer.setWeight`: update only for a configured origin and a
strictly positive weight, else throw with the state unchanged. -/
def setWeight (lb : LoadBalancer) (origin : String) (weight : ℚ) :
    LoadBalancer × Option String :=
  if origin ∈ lb.origins ∧ 0 < weight then
    ({ lb with weights := mapSet lb.weights origin weight }, none)
  else (lb, some "Invalid origin or weight")

/-- `LoadBalancer.releaseConnection`: decrement, clamped at zero. -/
def releaseConnection (lb : LoadBalancer) (origin : String) : LoadBalancer :=
  let current := jsOrZero (mapGet lb.connectionCounts origin)
  { lb with connectionCounts := mapSet lb.connectionCounts origin (max 0 (current - 1)) }

/-! ## Cache manager (CacheManager class) -/

/-- One entry of the per-content-type strategy table. -/
structure CacheStrategy where
  ttl : Nat
  vary : List String
deriving DecidableEq, Repr

/-- `this.cacheStrategies`, in object-literal order. -/
def cacheStrategies : List (String × CacheStrategy) :=
  [("text/html", ⟨3600, ["Accept-Encoding", "User-Agent"]⟩),
   ("text/css", ⟨86400, ["Accept-Encoding"]⟩),
   ("application/javascript", ⟨86400, ["Accept-Encoding"]⟩),
   ("application/json", ⟨1800, ["Accept-Encoding"]⟩),
   ("image/", ⟨604800, ["Accept"]⟩),
   ("font/", ⟨2592000, []⟩),
   ("default", ⟨3600, ["Accept-Encoding"]⟩)]

/-- `CacheManager.getCacheStrategy`: first table entry whose key is a
prefix of the content type, else the default strategy. -/
def getCacheStrategy (contentType : String) : CacheStrategy :=
  match cacheStrategies.find? (fun p => strStartsWith contentType p.1) with
  | some p => p.2
  | none => ⟨3600, ["Accept-Encoding"]⟩

/-- The parts of a `Response` the cache manager inspects: status,
headers, and the body as raw bytes. -/
structure JsResponse where
  status : Nat
  headers : List (String × String)
  body : List Nat
deriving DecidableEq, Repr

/-- `Response.ok`: status in the 2xx range. -/
def respOk (r : JsResponse) : Bool := 200 ≤ r.status && r.status < 300

/-- Whether the parsed `content-length` header exceeds the 10 MiB limit
(absent content-length parses as 0; an unparsable one is `NaN`, which
fails the `>` comparison). -/
def contentLengthExceeds (resp : JsResponse) : Bool :=
  match jsParseInt (headerGetD resp.headers "content-length" "0") with
  | some n => decide (10 * 1024 * 1024 < n)
  | none => false

/-- `CacheManager.isCacheable`: reject non-2xx/404 statuses,
`no-cache`/`no-store` directives, truthy `authorization`/`set-cookie`
headers, and a declared `content-length` above 10 MiB. The early
`return false` chain of the source is the nested if-chain here. -/
def isCacheable (resp : JsResponse) (_strategy : CacheStrategy) : Bool :=
  if ¬ (respOk resp = true) ∧ resp.status ≠ 404 then false
  else if containsSubstr (headerGetD resp.headers "cache-control" "") "no-cache" ||
      containsSubstr (headerGetD resp.headers "cache-control" "") "no-store" then false
  else if jsTruthy (headerGet resp.headers "authorization") ||
      jsTruthy (headerGet resp.headers "set-cookie") then false
  else if contentLengthExceeds resp then false
  else true

/-- The acceptance decision of `CacheManager.set` (the spec's `store`):
false exactly when `isCacheable` rejects; on acceptance the entry is
written to the key-value store and true is returned (backend errors,
which also yield false, are external and not modelled). -/
def cacheSet (resp : JsResponse) : Bool :=
  let contentType := headerGetD resp.headers "content-type" "default"
  isCacheable resp (getCacheStrategy contentType)

/-- `initializeWeights` plus `initializeGeographicMapping` as run by the
constructor: every origin gets weight 1 and connection count 0, and the
five colo mappings point at `origins[0]`, `origins[1]`, `origins[2]`. -/
def initLB (origins : List String) : LoadBalancer :=
  { origins := origins
    currentAlgorithm := "health_score"
    roundRobinIndex := 0
    connectionCounts := origins.foldl (fun m o => mapSet m o 0) []
    latencyHistory := []
    weights := origins.foldl (fun m o => mapSet m o 1) []
    geographicMapping :=
      [("LAX", origins.get? 0), ("DFW", origins.get? 1), ("JFK", origins.get? 0),
       ("LHR", origins.get? 2), ("NRT", origins.get? 1)] }

/-! ## Spec-side definitions (worded from the specification, for
refinement comparisons) -/

/-- The spec's health-score formula:
`round(0.4·100·successRate + 0.3·max(0, 100·(1 − avgResponseTime/threshold))
 + 0.3·max(0, 100 − 20·recentErrorCount))` with `recentErrorCount` the
number of logged errors within the last five probe intervals. -/
def specHealthScore (hc : HealthChecker) (now : ℤ) (m : OriginMetrics) : Int :=
  let successRate : ℚ := (m.successfulChecks : ℚ) / (m.totalChecks : ℚ)
  let avgResponseTime : ℚ := m.totalResponseTime / (m.totalChecks : ℚ)
  let recentErrorCount := (m.errors.filter (fun ts => now - ts < hc.checkInterval * 5)).length
  jsRound ((4/10) * 100 * successRate
    + (3/10) * max 0 (100 * (1 - avgResponseTime / hc.responseTimeThreshold))
    + (3/10) * max 0 (100 - 20 * (recentErrorCount : ℚ)))

/-- Spec-side cumulative weight of the first `n` origins of the healthy
set (weights as the code reads them, defaulting to 1). -/
def prefixW (ws : List (String × ℚ)) (healthy : List String) (n : Nat) : ℚ :=
  ((healthy.take n).map (wGet ws)).sum

/-! ## Operation sequences and invariants -/

/-- One load-balancer operation of the kind claim C9 quantifies over:
a selection call (with its environment), a connection release, or an
administrative weight update. -/
inductive LBOp where
  | select (hc : HealthChecker) (ctx : Ctx) (rand : ℚ) (now : ℤ)
  | release (origin : String)
  | setW (origin : String) (weight : ℚ)

/-- The state reached after one operation (selection returns the
post-call state even when the call raises mid-way, which for the
embedded code only happens before any mutation). -/
def applyOp (lb : LoadBalancer) : LBOp → LoadBalancer
  | LBOp.select hc ctx rand now => (getOptimalOrigin lb hc ctx rand now).2
  | LBOp.release origin => releaseConnection lb origin
  | LBOp.setW origin weight => (setWeight lb origin weight).1

/-- Every stored weight is strictly positive. -/
def WeightsPos (lb : LoadBalancer) : Prop := ∀ p ∈ lb.weights, 0 < p.2

/-- Every stored connection count is non-negative. -/
def CountsNonneg (lb : LoadBalancer) : Prop := ∀ p ∈ lb.connectionCounts, 0 ≤ p.2

/-- The data-model invariant of the load balancer state. -/
def LBInv (lb : LoadBalancer) : Prop := WeightsPos lb ∧ CountsNonneg lb

deriving instance DecidableEq for Except

/-! ## Concrete fixtures -/

/-- A health checker whose cache marks both of `lbTwo`'s origins healthy
at time 0 (probe interval 30000 ms, threshold 2000 ms). -/
def hcAllHealthy : HealthChecker :=
  { checkInterval := 30000
    responseTimeThreshold := 2000
    healthCache := [("health:https://a.example", (true, 0)),
                    ("health:https://b.example", (true, 0))]
    metrics := [] }

/-- A two-origin load balancer running the given algorithm, as the
constructor initializes it. -/
def lbTwo (alg : String) : LoadBalancer :=
  { origins := ["https://a.example", "https://b.example"]
    currentAlgorithm := alg
    roundRobinIndex := 0
    connectionCounts := [("https://a.example", 0), ("https://b.example", 0)]
    latencyHistory := []
    weights := [("https://a.example", 1), ("https://b.example", 1)]
    geographicMapping := [] }

/-- A plain request context. -/
def ctx0 : Ctx := { edgeColo := "LAX", country := "US", isFailover := false }

/-! ## Theorems -/

/-- C1: refuted as stated — with both origins healthy, the failed origin
being the first one, and the round-robin cursor at 0, `getFailoverOrigin`
returns the failed origin itself: the healthy-alternatives filter is
computed but ignored, and `getOptimalOrigin` re-selects over all healthy
origins including the failed one. -/
theorem getFailoverOrigin_can_return_failed_origin :
    getFailoverOrigin (lbTwo "round_robin") hcAllHealthy "https://a.example" ctx0 0 0
      = (Except.ok (some "https://a.example"),
         { lbTwo "round_robin" with roundRobinIndex := 1 }) := by
  decide

/-- C2: with the latency-based algorithm active and two healthy origins,
`getOptimalOrigin` raises a `ReferenceError` instead of selecting the
lowest-latency origin, because the body of `latencyBased` reads the
undefined identifier `origins` (its parameters were renamed to
`_origins`/`_context`). -/
theorem latencyBased_raises_reference_error :
    getOptimalOrigin (lbTwo "latency_based") hcAllHealthy ctx0 0 0
      = (Except.error JsErr.referenceError, lbTwo "latency_based") := by
  decide

/-- C3: when no configured origin is healthy, `getOptimalOrigin` returns
the first configured origin with no error and no state change. -/
theorem getOptimalOrigin_failopen (lb : LoadBalancer) (hc : HealthChecker)
    (ctx : Ctx) (rand : ℚ) (now : ℤ) (o : String)
    (hfirst : lb.origins.head? = some o)
    (hnone : lb.origins.filter (isOriginHealthy hc now) = []) :
    getOptimalOrigin lb hc ctx rand now = (Except.ok (some o), lb) := by
  simp [getOptimalOrigin, hnone, hfirst]

/-- C3 witness: a two-origin balancer whose health cache is empty. -/
theorem getOptimalOrigin_failopen_witness :
    getOptimalOrigin (lbTwo "health_score")
        { hcAllHealthy with healthCache := [] } ctx0 0 0
      = (Except.ok (some "https://a.example"), lbTwo "health_score") :=
  getOptimalOrigin_failopen (lbTwo "health_score")
    { hcAllHealthy with healthCache := [] } ctx0 0 0 "https://a.example"
    (by decide) (by decide)

/-- C4: for metrics with at least one recorded check, the code's health
score equals the spec's formula
`round(0.4·100·successRate + 0.3·max(0, 100·(1 − avg/threshold))
 + 0.3·max(0, 100 − 20·recentErrors))`. -/
theorem calculateHealthScore_eq_spec (hc : HealthChecker) (now : ℤ)
    (m : OriginMetrics) (h : 1 ≤ m.totalChecks) :
    calculateHealthScore hc now m = specHealthScore hc now m := by
  have h0 : m.totalChecks ≠ 0 := by omega
  simp only [calculateHealthScore, specHealthScore, if_neg h0]
  congr 1
  rw [show (100 : ℚ) - m.totalResponseTime / (m.totalChecks : ℚ) / hc.responseTimeThreshold * 100
        = 100 * (1 - (m.totalResponseTime / (m.totalChecks : ℚ)) / hc.responseTimeThreshold) by
      ring]
  rw [show (100 : ℚ) - ((m.errors.filter (fun ts => now - ts < hc.checkInterval * 5)).length : ℚ) * 20
        = 100 - 20 * ((m.errors.filter (fun ts => now - ts < hc.checkInterval * 5)).length : ℚ) by
      ring]
  ring

/-- C4 witness: two checks, one success, 1000 ms total response time,
one recent error. -/
theorem calculateHealthScore_eq_spec_witness :
    calculateHealthScore hcAllHealthy 10 ⟨2, 1, 1000, [5]⟩
      = specHealthScore hcAllHealthy 10 ⟨2, 1, 1000, [5]⟩ :=
  calculateHealthScore_eq_spec hcAllHealthy 10 ⟨2, 1, 1000, [5]⟩ (by decide)

/-- C6: `setAlgorithm` with a recognized name succeeds and installs that
name; with an unrecognized name it throws a configuration error and
leaves the whole state (in particular the current algorithm) unchanged. -/
theorem setAlgorithm_spec (lb : LoadBalancer) (name : String) :
    (name ∈ algorithmValues →
      setAlgorithm lb name = ({ lb with currentAlgorithm := name }, none)) ∧
    (name ∉ algorithmValues →
      setAlgorithm lb name = (lb, some ("Invalid algorithm: " ++ name))) := by
  constructor <;> intro h <;> simp [setAlgorithm, h]

/-- C6 witness: one recognized and one unrecognized name on a concrete
state. -/
theorem setAlgorithm_spec_witness :
    setAlgorithm (lbTwo "health_score") "round_robin"
        = ({ lbTwo "health_score" with currentAlgorithm := "round_robin" }, none) ∧
    setAlgorithm (lbTwo "health_score") "fastest"
        = (lbTwo "health_score", some ("Invalid algorithm: " ++ "fastest")) :=
  ⟨(setAlgorithm_spec (lbTwo "health_score") "round_robin").1 (by decide),
   (setAlgorithm_spec (lbTwo "health_score") "fastest").2 (by decide)⟩

/-- C8: whenever the cached snapshot for an origin is older than twice
the probe interval, `isOriginHealthy` returns false, even when the
snapshot's recorded healthy flag is true. -/
theorem isOriginHealthy_stale_false (hc : HealthChecker) (now : ℤ)
    (origin : String) (healthy : Bool) (ts : ℤ)
    (hcache : mapGet hc.healthCache ("health:" ++ origin) = some (healthy, ts))
    (hstale : now - ts > hc.checkInterval * 2) :
    isOriginHealthy hc now origin = false := by
  simp [isOriginHealthy, hcache, hstale]

/-- C8 witness: a snapshot recorded healthy at time 0 queried at
60001 ms with a 30000 ms probe interval. -/
theorem isOriginHealthy_stale_false_witness :
    isOriginHealthy hcAllHealthy 60001 "https://a.example" = false :=
  isOriginHealthy_stale_false hcAllHealthy 60001 "https://a.example" true 0
    (by decide) (by decide)

/-- C10: with exactly one configured origin, `getFailoverOrigin` on that
origin returns the failed origin itself via the last-resort branch
(`alternativeOrigins[0] || failedOrigin`). -/
theorem getFailoverOrigin_single_origin (lb : LoadBalancer) (hc : HealthChecker)
    (o : String) (ctx : Ctx) (rand : ℚ) (now : ℤ) (h : lb.origins = [o]) :
    getFailoverOrigin lb hc o ctx rand now = (Except.ok (some o), lb) := by
  simp [getFailoverOrigin, h]

/-- C10 witness: a single-origin balancer failing over from its only
origin. -/
theorem getFailoverOrigin_single_origin_witness :
    getFailoverOrigin { lbTwo "health_score" with origins := ["https://a.example"] }
        hcAllHealthy "https://a.example" ctx0 0 0
      = (Except.ok (some "https://a.example"),
         { lbTwo "health_score" with origins := ["https://a.example"] }) :=
  getFailoverOrigin_single_origin _ hcAllHealthy "https://a.example" ctx0 0 0 rfl

/-- The oversized response of the C7 counterexample: 2xx status, no
troublesome headers, no content-length, and a body one byte over the
10 MiB limit. -/
def bigBodyResp : JsResponse :=
  { status := 200, headers := [("content-type", "text/html")],
    body := List.replicate (10 * 1024 * 1024 + 1) 0 }

/-- C7: refuted as stated — the source checks only the declared
`content-length` header (defaulting to `'0'` when absent), never the
actual body, so a response with a body of 10 MiB + 1 byte and no
content-length header is accepted into the cache. -/
theorem cacheSet_ignores_actual_body_size :
    cacheSet bigBodyResp = true ∧ 10 * 1024 * 1024 < bigBodyResp.body.length := by
  refine ⟨by decide, ?_⟩
  rw [show bigBodyResp.body = List.replicate (10 * 1024 * 1024 + 1) 0 from rfl,
    List.length_replicate]
  omega

/-- C7 amended: `store` accepts only if the status is 2xx or 404, the
cache-control value contains neither `no-cache` nor `no-store`, the
`authorization` and `set-cookie` headers are absent or empty, and the
parsed `content-length` header (absent defaults to 0; an unparsable
value is NaN and passes) does not exceed 10 MiB. -/
theorem cacheSet_eligibility (resp : JsResponse) (h : cacheSet resp = true) :
    (respOk resp = true ∨ resp.status = 404) ∧
    containsSubstr (headerGetD resp.headers "cache-control" "") "no-cache" = false ∧
    containsSubstr (headerGetD resp.headers "cache-control" "") "no-store" = false ∧
    jsTruthy (headerGet resp.headers "authorization") = false ∧
    jsTruthy (headerGet resp.headers "set-cookie") = false ∧
    ∀ n, jsParseInt (headerGetD resp.headers "content-length" "0") = some n →
      n ≤ 10 * 1024 * 1024 := by
  unfold cacheSet isCacheable at h
  split_ifs at h with h1 h2 h3 h4
  refine ⟨?_, ?_, ?_, ?_, ?_, ?_⟩
  · rcases not_and_or.mp h1 with hx | hx
    · left; simpa using hx
    · right; simpa using hx
  · simp only [Bool.or_eq_true, not_or, Bool.not_eq_true] at h2
    exact h2.1
  · simp only [Bool.or_eq_true, not_or, Bool.not_eq_true] at h2
    exact h2.2
  · simp only [Bool.or_eq_true, not_or, Bool.not_eq_true] at h3
    exact h3.1
  · simp only [Bool.or_eq_true, not_or, Bool.not_eq_true] at h3
    exact h3.2
  · intro n hn
    simp only [Bool.not_eq_true] at h4
    unfold contentLengthExceeds at h4
    rw [hn] at h4
    simp only [decide_eq_false_iff_not, not_lt] at h4
    exact h4

/-- The small cacheable HTML response of the C7 amended witness. -/
def smallHtmlResp : JsResponse :=
  { status := 200, headers := [("content-type", "text/html"), ("content-length", "100")],
    body := [] }

/-- C7 amended witness: a small cacheable HTML response. -/
theorem cacheSet_eligibility_witness :
    (respOk smallHtmlResp = true ∨ smallHtmlResp.status = 404) ∧
    containsSubstr (headerGetD smallHtmlResp.headers "cache-control" "") "no-cache" = false ∧
    containsSubstr (headerGetD smallHtmlResp.headers "cache-control" "") "no-store" = false ∧
    jsTruthy (headerGet smallHtmlResp.headers "authorization") = false ∧
    jsTruthy (headerGet smallHtmlResp.headers "set-cookie") = false ∧
    ∀ n, jsParseInt (headerGetD smallHtmlResp.headers "content-length" "0") = some n →
      n ≤ 10 * 1024 * 1024 :=
  cacheSet_eligibility smallHtmlResp (by decide)

/-! ### Helper lemmas for the weighted-round-robin claim -/

/-- The weight sum of a list of origins. -/
def sumW (ws : List (String × ℚ)) (l : List String) : ℚ := (l.map (wGet ws)).sum

lemma mapGet_mem {α : Type} (m : List (String × α)) (k : String) (v : α)
    (h : mapGet m k = some v) : (k, v) ∈ m := by
  induction m with
  | nil => simp [mapGet] at h
  | cons p rest ih =>
    obtain ⟨k', v'⟩ := p
    by_cases hk : k' = k
    · simp [mapGet, hk] at h
      simp [hk, h]
    · simp [mapGet, hk] at h
      exact List.mem_cons_of_mem _ (ih h)

lemma wGet_pos (ws : List (String × ℚ)) (hw : ∀ p ∈ ws, 0 < p.2) (o : String) :
    0 < wGet ws o := by
  unfold wGet
  cases hm : mapGet ws o with
  | none => norm_num
  | some w =>
    by_cases hz : w = 0
    · simp [hz]
    · simpa [hz] using hw _ (mapGet_mem ws o w hm)

lemma sumW_pos (ws : List (String × ℚ)) (l : List String)
    (hne : l ≠ []) (hw : ∀ o, 0 < wGet ws o) : 0 < sumW ws l := by
  cases l with
  | nil => exact absurd rfl hne
  | cons o rest =>
    have h1 : 0 < wGet ws o := hw o
    have h2 : 0 ≤ sumW ws rest := by
      unfold sumW
      exact List.sum_nonneg (by
        intro x hx
        obtain ⟨y, _, rfl⟩ := List.mem_map.mp hx
        exact (hw y).le)
    unfold sumW at h2 ⊢
    simp only [List.map_cons, List.sum_cons]
    linarith

lemma foldl_add_wGet (ws : List (String × ℚ)) (l : List String) :
    ∀ init : ℚ, l.foldl (fun s o => s + wGet ws o) init = init + sumW ws l := by
  induction l with
  | nil => intro init; simp [sumW]
  | cons o rest ih =>
    intro init
    simp only [List.foldl_cons, ih, sumW, List.map_cons, List.sum_cons]
    ring

lemma prefixW_cons (ws : List (String × ℚ)) (o : String) (rest : List String) (k : Nat) :
    prefixW ws (o :: rest) (k + 1) = wGet ws o + prefixW ws rest k := by
  simp [prefixW, List.take_succ_cons]

lemma prefixW_length (ws : List (String × ℚ)) (l : List String) :
    prefixW ws l l.length = sumW ws l := by
  simp [prefixW, sumW, List.take_length]

lemma wrrLoop_some (ws : List (String × ℚ)) (r : ℚ) :
    ∀ (l : List String) (cur : ℚ), l ≠ [] → r ≤ cur + sumW ws l →
      ∃ o, wrrLoop ws r cur l = some o := by
  intro l
  induction l with
  | nil => intro cur h; exact absurd rfl h
  | cons o rest ih =>
    intro cur _ hle
    by_cases hc : r ≤ cur + wGet ws o
    · exact ⟨o, by simp [wrrLoop, hc]⟩
    · have hrest : rest ≠ [] := by
        intro hnil
        subst hnil
        simp only [sumW, List.map_cons, List.map_nil, List.sum_cons, List.sum_nil,
          add_zero] at hle
        exact hc hle
      have hle' : r ≤ (cur + wGet ws o) + sumW ws rest := by
        simp only [sumW, List.map_cons, List.sum_cons] at hle
        unfold sumW
        linarith
      obtain ⟨o', ho'⟩ := ih (cur + wGet ws o) hrest hle'
      exact ⟨o', by simpa [wrrLoop, hc] using ho'⟩

lemma wrrLoop_first (ws : List (String × ℚ)) (r : ℚ) :
    ∀ (l : List String) (cur : ℚ) (o : String), wrrLoop ws r cur l = some o →
      ∃ i, i < l.length ∧ l.get? i = some o ∧ r ≤ cur + prefixW ws l (i + 1) ∧
        ∀ j, j < i → cur + prefixW ws l (j + 1) < r := by
  intro l
  induction l with
  | nil => intro cur o h; simp [wrrLoop] at h
  | cons o0 rest ih =>
    intro cur o h
    by_cases hc : r ≤ cur + wGet ws o0
    · simp only [wrrLoop, hc, if_pos, Option.some.injEq] at h
      refine ⟨0, by simp, by simp [h], ?_, by omega⟩
      simpa [prefixW_cons, prefixW] using hc
    · simp only [wrrLoop, hc, if_neg, not_false_iff] at h
      obtain ⟨i, hi, hget, hle, hlt⟩ := ih (cur + wGet ws o0) o h
      refine ⟨i + 1, by simpa using hi, by simpa using hget, ?_, ?_⟩
      · rw [prefixW_cons]
        linarith
      · intro j hj
        cases j with
        | zero =>
          rw [prefixW_cons]
          simp only [prefixW, List.take_zero, List.map_nil, List.sum_nil, add_zero]
          linarith [not_le.mp hc]
        | succ j' =>
          rw [prefixW_cons]
          have := hlt j' (by omega)
          linarith

/-- C5: under the weighted round-robin algorithm with at least two
healthy origins and a uniform draw `rand ∈ [0, 1)` (so
`r = rand · totalWeight ∈ [0, totalWeight)`), the selected origin is the
first origin of the healthy set whose cumulative weight reaches `r`,
i.e. the origin whose cumulative-weight interval contains the draw. -/
theorem weightedRoundRobin_first_interval (lb : LoadBalancer)
    (healthy : List String) (rand : ℚ)
    (h2 : 2 ≤ healthy.length) (h0 : 0 ≤ rand) (h1 : rand < 1)
    (hw : ∀ p ∈ lb.weights, 0 < p.2) :
    ∃ o i, weightedRoundRobin lb healthy rand = (Except.ok (some o), lb) ∧
      i < healthy.length ∧ healthy.get? i = some o ∧
      rand * sumW lb.weights healthy ≤ prefixW lb.weights healthy (i + 1) ∧
      ∀ j, j < i → prefixW lb.weights healthy (j + 1) < rand * sumW lb.weights healthy := by
  have hne : healthy ≠ [] := by
    intro hnil
    rw [hnil] at h2
    simp at h2
  have hpos : ∀ o, 0 < wGet lb.weights o := wGet_pos lb.weights hw
  have htot : 0 < sumW lb.weights healthy := sumW_pos lb.weights healthy hne hpos
  have hr0 : 0 ≤ rand * sumW lb.weights healthy := mul_nonneg h0 htot.le
  have hrlt : rand * sumW lb.weights healthy < sumW lb.weights healthy := by
    calc rand * sumW lb.weights healthy
        < 1 * sumW lb.weights healthy := by
          exact mul_lt_mul_of_pos_right h1 htot
      _ = sumW lb.weights healthy := one_mul _
  obtain ⟨o, ho⟩ := wrrLoop_some lb.weights (rand * sumW lb.weights healthy) healthy 0
    hne (by linarith)
  obtain ⟨i, hi, hget, hle, hlt⟩ :=
    wrrLoop_first lb.weights (rand * sumW lb.weights healthy) healthy 0 o ho
  refine ⟨o, i, ?_, hi, hget, by linarith, ?_⟩
  · unfold weightedRoundRobin
    rw [foldl_add_wGet lb.weights healthy 0, zero_add]
    simp only [ho]
  · intro j hj
    have := hlt j hj
    linarith

/-- C5 witness: two origins with weight 1 each and a draw of 1/2, on
the constructor-initialized two-origin balancer. -/
theorem weightedRoundRobin_first_interval_witness :
    ∃ o i, weightedRoundRobin (lbTwo "weighted_round_robin")
        ["https://a.example", "https://b.example"] (1/2)
        = (Except.ok (some o), lbTwo "weighted_round_robin") ∧
      i < (["https://a.example", "https://b.example"] : List String).length ∧
      (["https://a.example", "https://b.example"] : List String).get? i = some o ∧
      (1/2 : ℚ) * sumW (lbTwo "weighted_round_robin").weights
          ["https://a.example", "https://b.example"]
        ≤ prefixW (lbTwo "weighted_round_robin").weights
            ["https://a.example", "https://b.example"] (i + 1) ∧
      ∀ j, j < i → prefixW (lbTwo "weighted_round_robin").weights
            ["https://a.example", "https://b.example"] (j + 1)
        < (1/2 : ℚ) * sumW (lbTwo "weighted_round_robin").weights
            ["https://a.example", "https://b.example"] :=
  weightedRoundRobin_first_interval (lbTwo "weighted_round_robin")
    ["https://a.example", "https://b.example"] (1/2)
    (by decide) (by norm_num) (by norm_num)
    (by
      intro p hp
      simp only [lbTwo, List.mem_cons, List.not_mem_nil, or_false] at hp
      rcases hp with rfl | rfl <;> norm_num)

/-! ### Helper lemmas for the state invariant claim -/

lemma mapSet_mem {α : Type} (m : List (String × α)) (k : String) (v : α) :
    ∀ q ∈ mapSet m k v, q = (k, v) ∨ q ∈ m := by
  induction m with
  | nil =>
    intro q hq
    simp only [mapSet, List.mem_singleton] at hq
    exact Or.inl hq
  | cons p rest ih =>
    obtain ⟨k', v'⟩ := p
    intro q hq
    unfold mapSet at hq
    by_cases hk : k' = k
    · rw [if_pos hk] at hq
      rcases List.mem_cons.mp hq with h | h
      · exact Or.inl (by rw [h, hk])
      · exact Or.inr (List.mem_cons_of_mem _ h)
    · rw [if_neg hk] at hq
      rcases List.mem_cons.mp hq with h | h
      · exact Or.inr (by rw [h]; exact List.mem_cons_self _ _)
      · rcases ih q h with h2 | h2
        · exact Or.inl h2
        · exact Or.inr (List.mem_cons_of_mem _ h2)

lemma foldl_mapSet_pred {α : Type} (P : String × α → Prop) (c : α)
    (hc : ∀ k, P (k, c)) :
    ∀ (l : List String) (m : List (String × α)), (∀ p ∈ m, P p) →
      ∀ p ∈ l.foldl (fun m o => mapSet m o c) m, P p := by
  intro l
  induction l with
  | nil => intro m hm; simpa using hm
  | cons o rest ih =>
    intro m hm
    simp only [List.foldl_cons]
    refine ih (mapSet m o c) ?_
    intro p hp
    rcases mapSet_mem m o c p hp with rfl | hp'
    · exact hc o
    · exact hm p hp'

lemma jsOrZero_nonneg (counts : List (String × Int))
    (h : ∀ p ∈ counts, 0 ≤ p.2) (o : String) : 0 ≤ jsOrZero (mapGet counts o) := by
  unfold jsOrZero
  cases hm : mapGet counts o with
  | none => norm_num
  | some v => exact h _ (mapGet_mem counts o v hm)

lemma leastConnLoop_nonneg (counts : List (String × Int))
    (h : ∀ p ∈ counts, 0 ≤ p.2) :
    ∀ (l : List String) (sel : String) (mn : Int), 0 ≤ mn →
      0 ≤ (leastConnLoop counts l sel mn).2 := by
  intro l
  induction l with
  | nil => intro sel mn hmn; simpa [leastConnLoop] using hmn
  | cons o rest ih =>
    intro sel mn hmn
    unfold leastConnLoop
    by_cases hc : jsOrZero (mapGet counts o) < mn
    · simp only [if_pos hc]
      exact ih o _ (jsOrZero_nonneg counts h o)
    · simp only [if_neg hc]
      exact ih sel mn hmn

lemma LBInv_index (lb : LoadBalancer) (n : Nat) (h : LBInv lb) :
    LBInv { lb with roundRobinIndex := n } := by
  exact h

lemma roundRobin_snd_inv (lb : LoadBalancer) (healthy : List String)
    (h : LBInv lb) : LBInv (roundRobin lb healthy).2 := by
  exact h

lemma leastConnections_snd_inv (lb : LoadBalancer) (healthy : List String)
    (h : LBInv lb) : LBInv (leastConnections lb healthy).2 := by
  obtain ⟨hw, hcnt⟩ := h
  cases healthy with
  | nil => exact ⟨hw, hcnt⟩
  | cons o0 rest =>
    constructor
    · exact hw
    · intro p hp
      simp only [leastConnections] at hp
      rcases mapSet_mem _ _ _ p hp with rfl | hp'
      · have h0 : (0 : Int) ≤ jsOrZero (mapGet lb.connectionCounts o0) :=
          jsOrZero_nonneg lb.connectionCounts hcnt o0
        have := leastConnLoop_nonneg lb.connectionCounts hcnt (o0 :: rest) o0
          (jsOrZero (mapGet lb.connectionCounts o0)) h0
        simpa using by linarith
      · exact hcnt p hp'

lemma weightedRoundRobin_snd (lb : LoadBalancer) (healthy : List String) (rand : ℚ) :
    (weightedRoundRobin lb healthy rand).2 = lb := by
  simp only [weightedRoundRobin]
  split <;> rfl

lemma geographic_snd (lb : LoadBalancer) (healthy : List String) (ctx : Ctx) :
    (geographic lb healthy ctx).2 = lb := by
  unfold geographic
  split
  · split_ifs <;> rfl
  · rfl

lemma healthScoreBased_snd (lb : LoadBalancer) (hc : HealthChecker)
    (healthy : List String) (rand : ℚ) (now : ℤ) :
    (healthScoreBased lb hc healthy rand now).2 = lb := by
  simp only [healthScoreBased]
  split
  · rfl
  · split_ifs
    · rfl
    · split <;> rfl

lemma getOptimalOrigin_snd_inv (lb : LoadBalancer) (hc : HealthChecker)
    (ctx : Ctx) (rand : ℚ) (now : ℤ) (h : LBInv lb) :
    LBInv (getOptimalOrigin lb hc ctx rand now).2 := by
  simp only [getOptimalOrigin]
  split_ifs with h1 h2 h3 h4 h5 h6 h7 h8
  · exact h
  · exact h
  · exact roundRobin_snd_inv lb _ h
  · exact leastConnections_snd_inv lb _ h
  · rw [weightedRoundRobin_snd]; exact h
  · exact h
  · rw [geographic_snd]; exact h
  · rw [healthScoreBased_snd]; exact h
  · exact roundRobin_snd_inv lb _ h

lemma releaseConnection_inv (lb : LoadBalancer) (origin : String) (h : LBInv lb) :
    LBInv (releaseConnection lb origin) := by
  obtain ⟨hw, hcnt⟩ := h
  refine ⟨hw, ?_⟩
  intro p hp
  simp only [releaseConnection] at hp
  rcases mapSet_mem _ _ _ p hp with rfl | hp'
  · exact le_max_left 0 _
  · exact hcnt p hp'

lemma setWeight_fst_inv (lb : LoadBalancer) (origin : String) (weight : ℚ)
    (h : LBInv lb) : LBInv (setWeight lb origin weight).1 := by
  obtain ⟨hw, hcnt⟩ := h
  unfold setWeight
  split_ifs with hcond
  · refine ⟨?_, hcnt⟩
    intro p hp
    rcases mapSet_mem _ _ _ p hp with rfl | hp'
    · exact hcond.2
    · exact hw p hp'
  · exact ⟨hw, hcnt⟩

lemma applyOp_inv (lb : LoadBalancer) (op : LBOp) (h : LBInv lb) :
    LBInv (applyOp lb op) := by
  cases op with
  | select hc ctx rand now => exact getOptimalOrigin_snd_inv lb hc ctx rand now h
  | release origin => exact releaseConnection_inv lb origin h
  | setW origin weight => exact setWeight_fst_inv lb origin weight h

lemma initLB_inv (origins : List String) : LBInv (initLB origins) := by
  constructor
  · intro p hp
    have := foldl_mapSet_pred (fun q => (0 : ℚ) < q.2) 1 (by intro k; norm_num)
      origins [] (by simp)
    exact this p hp
  · intro p hp
    have := foldl_mapSet_pred (fun q => (0 : ℤ) ≤ q.2) 0 (by intro k; norm_num)
      origins [] (by simp)
    exact this p hp

/-- C9: starting from the constructor-initialized state, any sequence of
selection calls, `releaseConnection` calls and `setWeight` calls leaves
every stored weight strictly positive and every stored connection count
non-negative; in particular `releaseConnection` never drives a count
below zero. -/
theorem loadBalancer_invariant (origins : List String) (ops : List LBOp) :
    WeightsPos (ops.foldl applyOp (initLB origins)) ∧
    CountsNonneg (ops.foldl applyOp (initLB origins)) := by
  suffices hgen : ∀ (l : List LBOp) (lb : LoadBalancer), LBInv lb →
      LBInv (l.foldl applyOp lb) by
    exact hgen ops (initLB origins) (initLB_inv origins)
  intro l
  induction l with
  | nil => intro lb h; exact h
  | cons op rest ih =>
    intro lb h
    exact ih (applyOp lb op) (applyOp_inv lb op h)

end PingBooster
